import Mathlib

/-!
Shallow embedding of the buildwise-backend project-lifecycle core: the project
status values, the timeline (audit) ledger, the estimate / change-order series,
the invoice records, and the role-gated HTTP routes that drive them.  Each
definition is translated from the TypeScript source it names; database rows are
modelled as lists inside an explicit `DB` state, `Date` values as natural-number
timestamps (threaded in as a `now` parameter), and thrown errors as
`Except String`.
-/

namespace Buildwise

/-- The `ProjectStatus` Prisma enum, as witnessed by the exhaustive
`Record<ProjectStatus, number>` in `ProjectService.calculateProgress`
(src/services/project.service.ts): six statuses, with no `CANCELLED` value. -/
inductive ProjectStatus where
  | PENDING
  | ESTIMATE_READY
  | APPROVED
  | IN_CONSTRUCTION
  | CHANGE_ORDER_PENDING
  | COMPLETED
deriving DecidableEq, Repr

/-- The `TimelineEventType` Prisma enum values used by the source
(CREATED, ASSIGNED, ESTIMATE, APPROVED, CHANGE_ORDER). -/
inductive TimelineEventType where
  | CREATED
  | ASSIGNED
  | ESTIMATE
  | APPROVED
  | CHANGE_ORDER
deriving DecidableEq, Repr

/-- The `UserRole` Prisma enum values referenced across the middleware copies
(role.middleware.ts and the second requireRole copy in auth.middleware.ts). -/
inductive UserRole where
  | ADMIN
  | TEAM_LEAD
  | SENIOR_ESTIMATOR
  | TEAM_MEMBER
  | CUSTOMER
deriving DecidableEq, Repr

/-- The `InvoiceStatus` Prisma enum (invoice.controller.ts). -/
inductive InvoiceStatus where
  | PENDING
  | PAID
  | OVERDUE
deriving DecidableEq, Repr

/-- One row of the `timelineEvent` table: `projectId`, `date`, human-readable
`event` text, `type`, and the denormalized actor display name `user`. -/
structure TimelineEvent where
  projectId : String
  date : Nat
  event : String
  type : TimelineEventType
  user : String
deriving DecidableEq, Repr

/-- The fields of a `project` row that the lifecycle operations read or write:
identity, mutable `status`, owning customer, and the `updatedAt` timestamp. -/
structure Project where
  id : String
  status : ProjectStatus
  customerId : String
  updatedAt : Nat
deriving DecidableEq, Repr

/-- One row of the `estimate` table: owning project, `total` in integer cents,
`changeOrderNumber` (null for an original estimate), and the creating user. -/
structure Estimate where
  projectId : String
  total : Nat
  changeOrderNumber : Option Nat
  createdById : String
deriving DecidableEq, Repr

/-- One row of the `invoice` table with the fields `updateInvoice` and
`deleteInvoice` touch: `amount` in integer cents, `status`, `dueDate`, and
`updatedAt`. -/
structure Invoice where
  id : String
  amount : Nat
  status : InvoiceStatus
  dueDate : Nat
  updatedAt : Nat
deriving DecidableEq, Repr

/-- The persistent state the modelled operations read and write: the project,
timeline-event, estimate, and invoice tables, each as a list of rows in
insertion order. -/
structure DB where
  projects : List Project
  events : List TimelineEvent
  estimates : List Estimate
  invoices : List Invoice
deriving DecidableEq, Repr

/-- The authenticated actor attached to a request by `authenticateToken`
(`req.user`): id, display name, and role. -/
structure Actor where
  id : String
  name : String
  role : UserRole
deriving DecidableEq, Repr

/-- Models `prisma.project.findUnique({ where: { id } })`: the first project row
with the given id. -/
def findProject (db : DB) (id : String) : Option Project :=
  db.projects.find? (fun p => p.id == id)

/-- Models `ProjectService.createTimelineEvent` / the controllers' local
`createTimelineEvent` helper: `prisma.timelineEvent.create` appends one new row
dated `now` with the given text, type, and actor display name. -/
def createTimelineEvent (db : DB) (projectId : String) (event : String)
    (type : TimelineEventType) (user : String) (now : Nat) : DB :=
  let row : TimelineEvent :=
    { projectId := projectId, date := now, event := event, type := type, user := user }
  { db with events := db.events ++ [row] }

/-- Lowercase spelling of each status name, as produced by
`status.toLowerCase()` in `ProjectService.updateProjectStatus`. -/
def statusLowerName : ProjectStatus → String
  | .PENDING => "pending"
  | .ESTIMATE_READY => "estimate_ready"
  | .APPROVED => "approved"
  | .IN_CONSTRUCTION => "in_construction"
  | .CHANGE_ORDER_PENDING => "change_order_pending"
  | .COMPLETED => "completed"

/-- Models the JavaScript `String.prototype.replace` with a string pattern:
only the first occurrence of the underscore is replaced. -/
def replaceFirstUnderscore : List Char → List Char
  | [] => []
  | c :: cs => if c = '_' then '-' :: cs else c :: replaceFirstUnderscore cs

/-- Models the display text `status.toLowerCase().replace('_', '-')` used in the
transition ledger entry (note: JavaScript replaces only the first underscore,
so CHANGE_ORDER_PENDING renders as "change-order_pending"). -/
def statusDisplay (s : ProjectStatus) : String :=
  String.mk (replaceFirstUnderscore (statusLowerName s).data)

/-- The payload `ProjectService.updateProjectStatus` resolves with: either the
selected `{ status }` of the untouched project (no-op path) or the
`{ previousStatus, newStatus }` object (transition path). -/
inductive StatusUpdateResult where
  | noChange (status : ProjectStatus)
  | changed (previousStatus newStatus : ProjectStatus)
deriving DecidableEq, Repr

/-- Models `prisma.project.update({ where: { id }, data: { status, updatedAt:
new Date() } })`: rewrite the matching row's status and updatedAt in place. -/
def writeProjectStatus (db : DB) (id : String) (status : ProjectStatus)
    (now : Nat) : DB :=
  { db with projects := db.projects.map (fun p =>
      if p.id == id then { p with status := status, updatedAt := now } else p) }

/-- Models `ProjectService.updateProjectStatus` (src/services/project.service.ts
lines 19-48): look the project up; throw `Project not found` when absent;
return the project unchanged when the target equals the current status;
otherwise write the new status plus a fresh `updatedAt` and append one
`Status changed to ...` timeline event of the generic APPROVED type. -/
def updateProjectStatus (db : DB) (projectId : String) (status : ProjectStatus)
    (user : String) (now : Nat) : Except String (DB × StatusUpdateResult) :=
  match findProject db projectId with
  | none => .error "Project not found"
  | some project =>
    if project.status = status then
      .ok (db, .noChange project.status)
    else
      let db1 := writeProjectStatus db projectId status now
      let db2 := createTimelineEvent db1 projectId
        ("Status changed to " ++ statusDisplay status) .APPROVED user now
      .ok (db2, .changed project.status status)

/-- Models `ProjectService.updateProjectStatus` when the timeline-event insert
can fail at the storage layer.  The source wraps neither write in a
transaction (`prisma.$transaction` does not appear): the awaited
`prisma.project.update` commits on its own before `createTimelineEvent` runs,
so a throwing append leaves the status write in place.  `appendSucceeds :=
false` injects a storage failure into the append; the first component is the
state that remains persisted either way. -/
def updateProjectStatusFallible (db : DB) (projectId : String)
    (status : ProjectStatus) (user : String) (now : Nat)
    (appendSucceeds : Bool) : DB × Except String StatusUpdateResult :=
  match findProject db projectId with
  | none => (db, .error "Project not found")
  | some project =>
    if project.status = status then
      (db, .ok (.noChange project.status))
    else
      let db1 := writeProjectStatus db projectId status now
      if appendSucceeds then
        (createTimelineEvent db1 projectId
          ("Status changed to " ++ statusDisplay status) .APPROVED user now,
         .ok (.changed project.status status))
      else
        (db1, .error "Timeline event insert failed")

/-- Models `prisma.estimate.create`: append one estimate row. -/
def insertEstimate (db : DB) (row : Estimate) : DB :=
  { db with estimates := db.estimates ++ [row] }

/-- Models the bare `prisma.project.update({ where: { id }, data: { status } })`
used by `createEstimate`: only the status column is written, with no no-op
check and no `updatedAt` refresh. -/
def setProjectStatusOnly (db : DB) (id : String) (st : ProjectStatus) : DB :=
  { db with projects := db.projects.map (fun p =>
      if p.id == id then { p with status := st } else p) }

/-- The estimates belonging to one project (`where: { projectId: id }`). -/
def projectEstimates (db : DB) (projectId : String) : List Estimate :=
  db.estimates.filter (fun e => e.projectId == projectId)

/-- Descending-order comparison on the nullable `changeOrderNumber` column used
to model `orderBy: { changeOrderNumber: 'desc' }`: `conGe a b` holds when `a`
sorts no later than `b`.  Prisma emits no NULLS clause here, and the
repository's PostgreSQL database (Supabase) defaults to NULLS FIRST on a
descending ORDER BY, so a null column sorts before every number. -/
def conGe : Option Nat → Option Nat → Bool
  | none, _ => true
  | some _, none => false
  | some a, some b => decide (b ≤ a)

/-- One comparison step of the descending scan for the latest estimate: keep
the row that sorts first in descending `changeOrderNumber` order, ties keeping
the earlier row. -/
def latestStep (best : Option Estimate) (e : Estimate) : Option Estimate :=
  match best with
  | none => some e
  | some b => if conGe b.changeOrderNumber e.changeOrderNumber then some b
              else some e

/-- Models `prisma.estimate.findFirst({ where: { projectId }, orderBy:
{ changeOrderNumber: 'desc' } })` applied to the project's estimates: the row
that sorts first in descending `changeOrderNumber` order — on PostgreSQL's
default NULLS FIRST, a null-numbered row (an original estimate) whenever one
exists, otherwise the row with the largest number. -/
def latestByChangeOrder (es : List Estimate) : Option Estimate :=
  es.foldl latestStep none

/-- Reading of the nullable column by `latestEstimate?.changeOrderNumber || 0`:
a missing row or a null number collapses to 0. -/
def conVal (c : Option Nat) : Nat := c.getD 0

/-- The number `createChangeOrder` computes for the next change order:
`(latestEstimate?.changeOrderNumber || 0) + 1` over the project's estimates. -/
def nextChangeOrderNumber (db : DB) (projectId : String) : Nat :=
  conVal ((latestByChangeOrder (projectEstimates db projectId)).bind
    Estimate.changeOrderNumber) + 1

/-- Models `createChangeOrder` (project.controller.ts): read the latest
estimate by descending `changeOrderNumber`, compute
`(latestEstimate?.changeOrderNumber || 0) + 1`, insert the change-order
estimate with that number, transition the project to CHANGE_ORDER_PENDING via
`ProjectService.updateProjectStatus`, and append a CHANGE_ORDER ledger entry.
`total` is a whole-dollar request amount, so `Math.round(total * 100)` is
`total * 100`.  When the transition throws (project absent) the surrounding
catch returns 500 but the already-awaited estimate insert persists. -/
def createChangeOrder (db : DB) (projectId : String) (total : Nat)
    (userId userName : String) (now : Nat) : DB × Except String Nat :=
  let changeOrderNumber := nextChangeOrderNumber db projectId
  let row : Estimate :=
    { projectId := projectId, total := total * 100, changeOrderNumber := some changeOrderNumber, createdById := userId }
  let db1 := insertEstimate db row
  match updateProjectStatus db1 projectId .CHANGE_ORDER_PENDING userName now with
  | .error e => (db1, .error e)
  | .ok (db2, _) =>
    let db3 := createTimelineEvent db2 projectId
      ("Change order #" ++ toString changeOrderNumber ++ " created: $" ++
        toString total ++ ".00") .CHANGE_ORDER userName now
    (db3, .ok changeOrderNumber)

/-- The request body of `createEstimate` (estimate.controller.ts): owning
project, whole-dollar `total`, and the caller-supplied `changeOrderNumber`
(absent for an original estimate). -/
structure EstimateBody where
  projectId : String
  total : Nat
  changeOrderNumber : Option Nat
deriving Repr

/-- Models `createEstimate` (estimate.controller.ts lines 121-194): 404
`Project not found` when the project is absent; otherwise insert the estimate
with `Math.round(total * 100)` cents and the body's `changeOrderNumber` taken
verbatim, then set the project's status to ESTIMATE_READY by a direct
`prisma.project.update` (no no-op check, no `updatedAt` refresh), then append
an ESTIMATE ledger entry. -/
def createEstimate (db : DB) (body : EstimateBody) (userId userName : String)
    (now : Nat) : DB × Except String Unit :=
  match findProject db body.projectId with
  | none => (db, .error "Project not found")
  | some _ =>
    let row : Estimate :=
      { projectId := body.projectId, total := body.total * 100, changeOrderNumber := body.changeOrderNumber, createdById := userId }
    let db1 := insertEstimate db row
    let db2 := setProjectStatusOnly db1 body.projectId .ESTIMATE_READY
    let db3 := createTimelineEvent db2 body.projectId
      ("Estimate created: $" ++ toString body.total ++ ".00") .ESTIMATE
      userName now
    (db3, .ok ())

/-- Models `approveEstimate` (project.controller.ts lines 612-632): delegate to
`ProjectService.updateProjectStatus(id, APPROVED, name)` and then append the
distinct `Estimate approved by customer` ledger entry; the response carries
`newStatus` from the transition or the unchanged `status`. -/
def approveEstimate (db : DB) (id : String) (userName : String) (now : Nat) :
    DB × Except String ProjectStatus :=
  match updateProjectStatus db id .APPROVED userName now with
  | .error e => (db, .error e)
  | .ok (db1, r) =>
    let db2 := createTimelineEvent db1 id "Estimate approved by customer"
      .APPROVED userName now
    (db2, .ok (match r with
      | .noChange s => s
      | .changed _ n => n))

/-- Models `requireRole` (role.middleware.ts lines 5-24): the request proceeds
exactly when the actor's role is in the allowed list. -/
def requireRole (allowedRoles : List UserRole) (role : UserRole) : Bool :=
  allowedRoles.contains role

/-- The allowed-role list of the `requireTeamLead` middleware
(role.middleware.ts line 24). -/
def teamLeadRoles : List UserRole := [.ADMIN, .TEAM_LEAD]

/-- Outcome of one routed request: success with the persisted state, a 403
denial carrying the required role set and the actor's role (and the untouched
state), or a 500 with the state as left by the controller's catch block. -/
inductive RouteOutcome where
  | ok (db : DB)
  | forbidden (required : List UserRole) (current : UserRole) (db : DB)
  | serverError (msg : String) (db : DB)
deriving DecidableEq, Repr

/-- Models `router.patch('/:id/status', requireTeamLead, updateProjectStatus)`
(project.routes.ts line 41): the role middleware runs before the controller,
so a denial returns 403 naming the required set and the actor's role with no
state change; otherwise the controller calls
`ProjectService.updateProjectStatus` with the actor's display name. -/
def patchProjectStatus (db : DB) (id : String) (status : ProjectStatus)
    (actor : Actor) (now : Nat) : RouteOutcome :=
  if requireRole teamLeadRoles actor.role then
    match updateProjectStatus db id status actor.name now with
    | .ok (db1, _) => .ok db1
    | .error e => .serverError e db
  else
    .forbidden teamLeadRoles actor.role db

/-- Models `router.post('/:id/approve-estimate', approveEstimate)`
(project.routes.ts line 42): no role or ownership middleware is mounted, so
every authenticated actor reaches the controller directly. -/
def postApproveEstimate (db : DB) (id : String) (actor : Actor) (now : Nat) :
    RouteOutcome :=
  match approveEstimate db id actor.name now with
  | (db1, .ok _) => .ok db1
  | (db1, .error e) => .serverError e db1

/-- The request body of `updateInvoice` (invoice.controller.ts): every field
optional; the controller copies present fields into `updateData`. -/
structure InvoiceUpdateBody where
  status : Option InvoiceStatus
  amount : Option Nat
  dueDate : Option Nat
deriving Repr

/-- Models `prisma.invoice.findUnique({ where: { id } })`. -/
def findInvoice (invs : List Invoice) (id : String) : Option Invoice :=
  invs.find? (fun i => i.id == id)

/-- The `updateData` written by `updateInvoice`: each present body field
overwrites the row (amount in whole dollars becomes `Math.round(amount * 100)`
cents) and `updatedAt` is refreshed; absent fields keep the row's values. -/
def applyInvoiceUpdate (body : InvoiceUpdateBody) (now : Nat) (inv : Invoice) :
    Invoice :=
  { inv with
    updatedAt := now,
    status := body.status.getD inv.status,
    amount := (body.amount.map (fun a => a * 100)).getD inv.amount,
    dueDate := body.dueDate.getD inv.dueDate }

/-- Models `updateInvoice` (invoice.controller.ts lines 181-233): apply
`updateData` with `prisma.invoice.update` — which throws when the row is
absent and otherwise overwrites unconditionally; no invoice-status guard is
evaluated. -/
def updateInvoice (invs : List Invoice) (id : String)
    (body : InvoiceUpdateBody) (now : Nat) : Except String (List Invoice) :=
  match findInvoice invs id with
  | none => .error "Record to update not found"
  | some _ =>
    .ok (invs.map (fun inv =>
      if inv.id == id then applyInvoiceUpdate body now inv else inv))

/-- Models `deleteInvoice` (invoice.controller.ts lines 235-263): 404 when the
invoice is absent, 400 `Cannot delete paid invoice` when its status is PAID,
and otherwise the row is removed. -/
def deleteInvoice (invs : List Invoice) (id : String) :
    Except String (List Invoice) :=
  match findInvoice invs id with
  | none => .error "Invoice not found"
  | some inv =>
    if inv.status = .PAID then .error "Cannot delete paid invoice"
    else .ok (invs.filter (fun i => !(i.id == id)))

/-- The transition edge set declared by the specification, stated from the
spec's words for comparison with the implementation: PENDING → ESTIMATE_READY
→ APPROVED → either of IN_CONSTRUCTION and CHANGE_ORDER_PENDING (mutually
re-enterable) → COMPLETED.  The spec's CANCELLED state has no counterpart in
the source's ProjectStatus enum, so its edges have no representation here. -/
def specAllowedEdge : ProjectStatus → ProjectStatus → Bool
  | .PENDING, .ESTIMATE_READY => true
  | .ESTIMATE_READY, .APPROVED => true
  | .APPROVED, .IN_CONSTRUCTION => true
  | .APPROVED, .CHANGE_ORDER_PENDING => true
  | .IN_CONSTRUCTION, .CHANGE_ORDER_PENDING => true
  | .CHANGE_ORDER_PENDING, .IN_CONSTRUCTION => true
  | .IN_CONSTRUCTION, .COMPLETED => true
  | .CHANGE_ORDER_PENDING, .COMPLETED => true
  | _, _ => false

/-- Spec formula for the change-order numbering invariant: the maximum
`changeOrderNumber` over a project's estimates, a null number read as 0,
defaulting to 0 when the series is empty. -/
def maxChangeOrderNumber (es : List Estimate) : Nat :=
  es.foldl (fun acc e => max acc (conVal e.changeOrderNumber)) 0

/-- Observation used in theorem statements: the status of the given project in
the state an `updateProjectStatus` call resolved with, or none when the call
threw. -/
def statusAfter (r : Except String (DB × StatusUpdateResult)) (id : String) :
    Option ProjectStatus :=
  match r with
  | .ok (db, _) => (findProject db id).map Project.status
  | .error _ => none

/-! Sample rows and states used by concrete counterexamples and witnesses. -/

/-- A freshly intaken project, still PENDING. -/
def sampleProject : Project :=
  { id := "p1", status := .PENDING, customerId := "c1", updatedAt := 0 }

/-- State holding only `sampleProject`. -/
def sampleDB : DB :=
  { projects := [sampleProject], events := [], estimates := [], invoices := [] }

/-- A project whose lifecycle has finished. -/
def completedProject : Project :=
  { id := "p2", status := .COMPLETED, customerId := "c1", updatedAt := 0 }

/-- State holding only `completedProject`. -/
def completedDB : DB :=
  { projects := [completedProject], events := [], estimates := [], invoices := [] }

/-- A project whose estimate is ready for customer approval, owned by customer
"c9". -/
def readyProject : Project :=
  { id := "p3", status := .ESTIMATE_READY, customerId := "c9", updatedAt := 0 }

/-- State holding only `readyProject`. -/
def readyDB : DB :=
  { projects := [readyProject], events := [], estimates := [], invoices := [] }

/-- An existing change order numbered 1 on project "p1". -/
def coEstimate : Estimate :=
  { projectId := "p1", total := 7500000, changeOrderNumber := some 1, createdById := "u1" }

/-- State holding `sampleProject` together with change order #1. -/
def coDB : DB :=
  { projects := [sampleProject], events := [], estimates := [coEstimate], invoices := [] }

/-- The original estimate of project "p1", stored with a null
`changeOrderNumber` exactly as `createEstimate` stores it by default. -/
def originalEstimate : Estimate :=
  { projectId := "p1", total := 50000000, changeOrderNumber := none, createdById := "u1" }

/-- State holding `sampleProject` with its full estimate series: the
null-numbered original estimate followed by change order #1. -/
def seriesDB : DB :=
  { projects := [sampleProject], events := [],
    estimates := [originalEstimate, coEstimate], invoices := [] }

/-- An invoice that has been PAID. -/
def paidInvoice : Invoice :=
  { id := "i1", amount := 100000, status := .PAID, dueDate := 10, updatedAt := 0 }

/-- The customer who owns `readyProject`. -/
def customerActor : Actor :=
  { id := "c9", name := "Cara", role := .CUSTOMER }

/-- A team-member actor unrelated to any sample project. -/
def teamActor : Actor :=
  { id := "u7", name := "Tess", role := .TEAM_MEMBER }

/-! Supporting lemmas shared by the claim theorems. -/

theorem find?_map_update {α : Type} (l : List α) (q : α → Bool) (f : α → α)
    (hf : ∀ a, q a = true → q (f a) = true) :
    (l.map (fun a => if q a then f a else a)).find? q = (l.find? q).map f := by
  induction l with
  | nil => rfl
  | cons a l ih =>
    by_cases h : q a = true
    · simp only [List.map_cons, if_pos h, List.find?_cons_of_pos _ h,
        List.find?_cons_of_pos _ (hf a h), Option.map_some']
    · simp only [List.map_cons, if_neg h, List.find?_cons_of_neg _ h, ih,
        List.find?_cons_of_neg _ h]

theorem findProject_writeProjectStatus (db : DB) (id : String)
    (st : ProjectStatus) (now : Nat) :
    findProject (writeProjectStatus db id st now) id =
      (findProject db id).map
        (fun p => { p with status := st, updatedAt := now }) := by
  unfold findProject writeProjectStatus
  exact find?_map_update db.projects (fun p => p.id == id) _ (fun p hp => hp)

theorem findProject_setProjectStatusOnly (db : DB) (id : String)
    (st : ProjectStatus) :
    findProject (setProjectStatusOnly db id st) id =
      (findProject db id).map (fun p => { p with status := st }) := by
  unfold findProject setProjectStatusOnly
  exact find?_map_update db.projects (fun p => p.id == id) _ (fun p hp => hp)

theorem updateProjectStatus_noop (db : DB) (id : String) (st : ProjectStatus)
    (user : String) (now : Nat) (p : Project)
    (hfind : findProject db id = some p) (heq : p.status = st) :
    updateProjectStatus db id st user now = .ok (db, .noChange p.status) := by
  unfold updateProjectStatus
  rw [hfind]
  simp [heq]

theorem conVal_le_of_conGe (a b : Option Nat) (ha : a ≠ none)
    (h : conGe a b = true) : conVal b ≤ conVal a := by
  cases a with
  | none => exact absurd rfl ha
  | some x =>
    cases b with
    | none => simp [conVal]
    | some y =>
      simp only [conGe, decide_eq_true_eq] at h
      exact h

theorem conVal_le_of_conGe_false (a b : Option Nat) (hb : b ≠ none)
    (h : conGe a b = false) : conVal a ≤ conVal b := by
  cases a with
  | none => simp [conGe] at h
  | some x =>
    cases b with
    | none => exact absurd rfl hb
    | some y =>
      simp only [conGe, decide_eq_false_iff_not] at h
      exact Nat.le_of_lt (Nat.lt_of_not_le h)

theorem updateProjectStatus_error_of_not_found (db : DB) (id : String)
    (st : ProjectStatus) (user : String) (now : Nat)
    (hfind : findProject db id = none) :
    updateProjectStatus db id st user now = .error "Project not found" := by
  unfold updateProjectStatus
  rw [hfind]

theorem latest_fold_conVal (es : List Estimate) (b : Estimate)
    (hb : b.changeOrderNumber ≠ none)
    (hes : ∀ e ∈ es, e.changeOrderNumber ≠ none) :
    conVal ((es.foldl latestStep (some b)).bind Estimate.changeOrderNumber) =
      es.foldl (fun a e => max a (conVal e.changeOrderNumber))
        (conVal b.changeOrderNumber) := by
  induction es generalizing b with
  | nil => rfl
  | cons e es ih =>
    have he : e.changeOrderNumber ≠ none := hes e (List.mem_cons_self e es)
    have hes2 : ∀ f ∈ es, f.changeOrderNumber ≠ none :=
      fun f hf => hes f (List.mem_cons_of_mem e hf)
    simp only [List.foldl_cons]
    cases hg : conGe b.changeOrderNumber e.changeOrderNumber with
    | true =>
      have hm : max (conVal b.changeOrderNumber) (conVal e.changeOrderNumber) =
          conVal b.changeOrderNumber :=
        Nat.max_eq_left (conVal_le_of_conGe _ _ hb hg)
      rw [show latestStep (some b) e = some b by simp [latestStep, hg], hm]
      exact ih b hb hes2
    | false =>
      have hm : max (conVal b.changeOrderNumber) (conVal e.changeOrderNumber) =
          conVal e.changeOrderNumber :=
        Nat.max_eq_right (conVal_le_of_conGe_false _ _ he hg)
      rw [show latestStep (some b) e = some e by simp [latestStep, hg], hm]
      exact ih e he hes2

theorem latestByChangeOrder_conVal (es : List Estimate)
    (hes : ∀ e ∈ es, e.changeOrderNumber ≠ none) :
    conVal ((latestByChangeOrder es).bind Estimate.changeOrderNumber) =
      maxChangeOrderNumber es := by
  cases es with
  | nil => rfl
  | cons e es =>
    unfold latestByChangeOrder maxChangeOrderNumber
    simp only [List.foldl_cons]
    rw [show latestStep none e = some e from rfl, Nat.zero_max]
    exact latest_fold_conVal es e (hes e (List.mem_cons_self e es))
      (fun f hf => hes f (List.mem_cons_of_mem e hf))

theorem foldl_max_init_le (es : List Estimate) (a : Nat) :
    a ≤ es.foldl (fun x e => max x (conVal e.changeOrderNumber)) a := by
  induction es generalizing a with
  | nil => exact Nat.le_refl a
  | cons e es ih =>
    simp only [List.foldl_cons]
    exact Nat.le_trans (Nat.le_max_left _ _) (ih _)

theorem mem_le_foldl_max (es : List Estimate) (a : Nat) (e : Estimate)
    (he : e ∈ es) :
    conVal e.changeOrderNumber ≤
      es.foldl (fun x f => max x (conVal f.changeOrderNumber)) a := by
  induction es generalizing a with
  | nil => cases he
  | cons f es ih =>
    simp only [List.foldl_cons]
    cases he with
    | head =>
      exact Nat.le_trans (Nat.le_max_right _ _) (foldl_max_init_le _ _)
    | tail _ hmem => exact ih _ hmem

theorem updateProjectStatus_changed (db : DB) (id : String)
    (st : ProjectStatus) (user : String) (now : Nat) (p : Project)
    (hfind : findProject db id = some p) (hne : p.status ≠ st) :
    updateProjectStatus db id st user now =
      .ok (createTimelineEvent (writeProjectStatus db id st now) id
             ("Status changed to " ++ statusDisplay st) .APPROVED user now,
           .changed p.status st) := by
  unfold updateProjectStatus
  rw [hfind]
  simp only [if_neg hne]

theorem updateProjectStatus_ok_estimates (db : DB) (id : String)
    (st : ProjectStatus) (user : String) (now : Nat) (db1 : DB)
    (r : StatusUpdateResult)
    (h : updateProjectStatus db id st user now = .ok (db1, r)) :
    db1.estimates = db.estimates := by
  cases hf : findProject db id with
  | none =>
    rw [updateProjectStatus_error_of_not_found db id st user now hf] at h
    exact absurd h (by simp)
  | some p =>
    by_cases hs : p.status = st
    · rw [updateProjectStatus_noop db id st user now p hf hs] at h
      simp only [Except.ok.injEq, Prod.mk.injEq] at h
      rw [← h.1]
    · rw [updateProjectStatus_changed db id st user now p hf hs] at h
      simp only [Except.ok.injEq, Prod.mk.injEq] at h
      rw [← h.1]
      rfl

theorem findProject_insertEstimate (db : DB) (row : Estimate) (id : String) :
    findProject (insertEstimate db row) id = findProject db id := rfl

theorem createChangeOrder_estimates (db : DB) (projectId : String)
    (total : Nat) (userId userName : String) (now : Nat) :
    (createChangeOrder db projectId total userId userName now).1.estimates =
      db.estimates ++ [⟨projectId, total * 100,
        some (nextChangeOrderNumber db projectId), userId⟩] := by
  simp only [createChangeOrder]
  split
  next e h =>
    rfl
  next db2 r h =>
    exact updateProjectStatus_ok_estimates _ _ _ _ _ _ _ h

/-! Claim theorems. -/

/-- C1 counterexample: COMPLETED → PENDING lies outside the declared edge set
(`specAllowedEdge`), yet `updateProjectStatus` accepts the request and leaves
the project in status PENDING instead of failing with an InvalidTransition
error and leaving the status unchanged. -/
theorem illegal_edge_transition_accepted_cex :
    specAllowedEdge .COMPLETED .PENDING = false ∧
    statusAfter (updateProjectStatus completedDB "p2" .PENDING "Alice" 7)
      "p2" = some .PENDING :=
  ⟨rfl, rfl⟩

/-- C1 (amended): `updateProjectStatus` performs no edge validation at all:
for every existing project and every requested target different from the
current status — including every pair outside the spec's declared edge set —
the transition succeeds and the project ends in the target status; no
InvalidTransition error exists, the only failure being the project-not-found
lookup. -/
theorem updateProjectStatus_no_edge_validation (db : DB) (id : String)
    (st : ProjectStatus) (user : String) (now : Nat) (p : Project)
    (hfind : findProject db id = some p) (hne : p.status ≠ st)
    (_hedge : specAllowedEdge p.status st = false) :
    statusAfter (updateProjectStatus db id st user now) id = some st := by
  rw [updateProjectStatus_changed db id st user now p hfind hne]
  show (findProject (writeProjectStatus db id st now) id).map Project.status =
    some st
  rw [findProject_writeProjectStatus, hfind]
  rfl

/-- Witness for C1 (amended) at the concrete illegal edge COMPLETED →
IN_CONSTRUCTION. -/
theorem updateProjectStatus_no_edge_validation_witness :
    statusAfter (updateProjectStatus completedDB "p2" .IN_CONSTRUCTION
      "Alice" 7) "p2" = some .IN_CONSTRUCTION :=
  updateProjectStatus_no_edge_validation completedDB "p2" .IN_CONSTRUCTION
    "Alice" 7 completedProject rfl (by decide) (by decide)

/-- C3 counterexample: with a storage failure injected into the timeline
append, the preceding status write persists — the operation reports an error
while the project's status has already moved to ESTIMATE_READY and no event
was recorded, so the pair of writes is not an atomic unit. -/
theorem status_ledger_atomicity_cex :
    (updateProjectStatusFallible sampleDB "p1" .ESTIMATE_READY "Alice" 5
        false).2 = .error "Timeline event insert failed" ∧
    (findProject (updateProjectStatusFallible sampleDB "p1" .ESTIMATE_READY
        "Alice" 5 false).1 "p1").map Project.status = some .ESTIMATE_READY ∧
    (updateProjectStatusFallible sampleDB "p1" .ESTIMATE_READY "Alice" 5
        false).1.events = sampleDB.events :=
  ⟨rfl, rfl, rfl⟩

/-- C3 (amended): the status write and the ledger append are two independent
sequential writes with no transaction around them: whenever the timeline
append fails after a real transition, the already-committed status write is
not rolled back — the persisted state holds the new status and an unchanged
ledger while the operation reports the append error. -/
theorem status_write_persists_on_append_failure (db : DB) (id : String)
    (st : ProjectStatus) (user : String) (now : Nat) (p : Project)
    (hfind : findProject db id = some p) (hne : p.status ≠ st) :
    (updateProjectStatusFallible db id st user now false).2 =
        .error "Timeline event insert failed" ∧
    (findProject (updateProjectStatusFallible db id st user now false).1
        id).map Project.status = some st ∧
    (updateProjectStatusFallible db id st user now false).1.events =
      db.events := by
  have h : updateProjectStatusFallible db id st user now false =
      (writeProjectStatus db id st now,
       .error "Timeline event insert failed") := by
    unfold updateProjectStatusFallible
    rw [hfind]
    simp [hne]
  rw [h]
  refine ⟨rfl, ?_, rfl⟩
  rw [findProject_writeProjectStatus, hfind]
  rfl

/-- Witness for C3 (amended) at a concrete PENDING → COMPLETED attempt with a
failing append. -/
theorem status_write_persists_on_append_failure_witness :
    (updateProjectStatusFallible sampleDB "p1" .COMPLETED "Ann" 9 false).2 =
        .error "Timeline event insert failed" ∧
    (findProject (updateProjectStatusFallible sampleDB "p1" .COMPLETED "Ann"
        9 false).1 "p1").map Project.status = some .COMPLETED ∧
    (updateProjectStatusFallible sampleDB "p1" .COMPLETED "Ann" 9
        false).1.events = sampleDB.events :=
  status_write_persists_on_append_failure sampleDB "p1" .COMPLETED "Ann" 9
    sampleProject rfl (by decide)

/-- C4: requesting a transition whose target equals the project's current
status is a successful no-op: `updateProjectStatus` resolves with the state
untouched — no timeline entry is appended and the project, `updatedAt`
included, is unchanged — and the project is (still) in the target status. -/
theorem noop_transition_success (db : DB) (id : String) (st : ProjectStatus)
    (user : String) (now : Nat) (p : Project)
    (hfind : findProject db id = some p) (heq : p.status = st) :
    updateProjectStatus db id st user now = .ok (db, .noChange p.status) ∧
    statusAfter (updateProjectStatus db id st user now) id = some st := by
  have h := updateProjectStatus_noop db id st user now p hfind heq
  refine ⟨h, ?_⟩
  rw [h]
  show (findProject db id).map Project.status = some st
  rw [hfind]
  simp [heq]

/-- Witness for C4: setStatus to COMPLETED on an already COMPLETED project
succeeds with zero new ledger entries and an unchanged state. -/
theorem noop_transition_success_witness :
    updateProjectStatus completedDB "p2" .COMPLETED "Admin" 9 =
        .ok (completedDB, .noChange .COMPLETED) ∧
    statusAfter (updateProjectStatus completedDB "p2" .COMPLETED "Admin" 9)
      "p2" = some .COMPLETED :=
  noop_transition_success completedDB "p2" .COMPLETED "Admin" 9
    completedProject rfl rfl

/-- C5: a successful transition (target differs from the current status) sets
the project's status to the target, refreshes `updatedAt` to the operation's
timestamp, and appends exactly one timeline event describing the transition
whose `user` field carries the actor's display name. -/
theorem successful_transition_effects (db : DB) (id : String)
    (st : ProjectStatus) (user : String) (now : Nat) (p : Project)
    (hfind : findProject db id = some p) (hne : p.status ≠ st) :
    ∃ db1, updateProjectStatus db id st user now =
        .ok (db1, .changed p.status st) ∧
      (findProject db1 id).map Project.status = some st ∧
      (findProject db1 id).map Project.updatedAt = some now ∧
      db1.events = db.events ++
        [⟨id, now, "Status changed to " ++ statusDisplay st, .APPROVED,
          user⟩] := by
  refine ⟨_, updateProjectStatus_changed db id st user now p hfind hne,
    ?_, ?_, ?_⟩
  · show (findProject (writeProjectStatus db id st now) id).map
      Project.status = some st
    rw [findProject_writeProjectStatus, hfind]
    rfl
  · show (findProject (writeProjectStatus db id st now) id).map
      Project.updatedAt = some now
    rw [findProject_writeProjectStatus, hfind]
    rfl
  · rfl

/-- C2 counterexample: with the null-numbered original estimate present next
to change order #1, the descending scan's NULLS FIRST order makes `findFirst`
return the null row, so `createChangeOrder` computes
`(null || 0) + 1 = 1` rather than `1 + max = 2`, and project "p1" ends up
with two estimates numbered 1 — the numbering formula, strict increase and
per-project uniqueness all fail. -/
theorem changeOrderNumber_collision_cex :
    (createChangeOrder seriesDB "p1" 750 "u2" "Eve" 4).2 = .ok 1 ∧
    maxChangeOrderNumber (projectEstimates seriesDB "p1") + 1 = 2 ∧
    ((createChangeOrder seriesDB "p1" 750 "u2" "Eve"
        4).1.estimates.filter (fun e =>
          e.projectId == "p1" && e.changeOrderNumber == some 1)).length = 2 :=
  ⟨rfl, rfl, rfl⟩

/-- C2 (amended): only when the project's estimate series contains no
null-numbered row does `createChangeOrder` assign
`1 + max(existing changeOrderNumber, defaulting to 0)`, a number strictly
exceeding every change-order number already recorded for the project; when a
null-numbered original estimate exists, the NULLS FIRST descending scan
returns it and the assigned number is 1 regardless of existing change orders
(see the counterexample), so the formula and per-project uniqueness are not
invariants of the series. -/
theorem createChangeOrder_next_number (db : DB) (projectId : String)
    (total : Nat) (userId userName : String) (now : Nat)
    (hnonull : ∀ e ∈ projectEstimates db projectId,
      e.changeOrderNumber ≠ none) :
    (createChangeOrder db projectId total userId userName now).1.estimates =
        db.estimates ++ [⟨projectId, total * 100,
          some (maxChangeOrderNumber (projectEstimates db projectId) + 1),
          userId⟩] ∧
    ∀ e ∈ projectEstimates db projectId, ∀ k,
      e.changeOrderNumber = some k →
        k < maxChangeOrderNumber (projectEstimates db projectId) + 1 := by
  have hnum : nextChangeOrderNumber db projectId =
      maxChangeOrderNumber (projectEstimates db projectId) + 1 := by
    unfold nextChangeOrderNumber
    rw [latestByChangeOrder_conVal _ hnonull]
  constructor
  · rw [← hnum]
    exact createChangeOrder_estimates db projectId total userId userName now
  · intro e he k hk
    have h1 : conVal e.changeOrderNumber ≤
        maxChangeOrderNumber (projectEstimates db projectId) :=
      mem_le_foldl_max _ 0 e he
    rw [hk] at h1
    exact Nat.lt_succ_of_le h1

/-- Witness for C2 (amended) on the state holding change order #1 and no
null-numbered estimate: the new change order is numbered 2 and 1 < 2. -/
theorem createChangeOrder_next_number_witness :
    (createChangeOrder coDB "p1" 750 "u2" "Eve" 4).1.estimates =
        coDB.estimates ++ [⟨"p1", 75000, some 2, "u2"⟩] ∧
    coEstimate ∈ projectEstimates coDB "p1" ∧ (1 : Nat) < 2 :=
  ⟨(createChangeOrder_next_number coDB "p1" 750 "u2" "Eve" 4 (by decide)).1,
   by decide,
   (createChangeOrder_next_number coDB "p1" 750 "u2" "Eve" 4
     (by decide)).2 coEstimate (by decide) 1 rfl⟩

/-- C6: on a project in status ESTIMATE_READY, `approveEstimate` invoked by
the customer who owns the project succeeds, leaves the project APPROVED, and
appends exactly two new ledger entries — the transition's own entry plus the
distinct "Estimate approved by customer" entry. -/
theorem approveEstimate_customer_success (db : DB) (id : String)
    (actor : Actor) (now : Nat) (p : Project)
    (hfind : findProject db id = some p) (_hrole : actor.role = .CUSTOMER)
    (_hown : p.customerId = actor.id) (hst : p.status = .ESTIMATE_READY) :
    ∃ db1, postApproveEstimate db id actor now = .ok db1 ∧
      (findProject db1 id).map Project.status = some .APPROVED ∧
      db1.events = db.events ++
        [⟨id, now, "Status changed to " ++ statusDisplay .APPROVED,
          .APPROVED, actor.name⟩,
         ⟨id, now, "Estimate approved by customer", .APPROVED,
          actor.name⟩] := by
  have hne : p.status ≠ .APPROVED := by
    rw [hst]
    decide
  have hup := updateProjectStatus_changed db id .APPROVED actor.name now p
    hfind hne
  refine ⟨createTimelineEvent (createTimelineEvent
      (writeProjectStatus db id .APPROVED now) id
      ("Status changed to " ++ statusDisplay .APPROVED) .APPROVED actor.name
      now) id "Estimate approved by customer" .APPROVED actor.name now,
    ?_, ?_, ?_⟩
  · unfold postApproveEstimate approveEstimate
    rw [hup]
  · show (findProject (writeProjectStatus db id .APPROVED now) id).map
      Project.status = some .APPROVED
    rw [findProject_writeProjectStatus, hfind]
    rfl
  · exact List.append_assoc _ _ _

/-- Witness for C6: customer "Cara" approving her own ESTIMATE_READY project
"p3". -/
theorem approveEstimate_customer_success_witness :
    ∃ db1, postApproveEstimate readyDB "p3" customerActor 8 = .ok db1 ∧
      (findProject db1 "p3").map Project.status = some .APPROVED ∧
      db1.events = readyDB.events ++
        [⟨"p3", 8, "Status changed to " ++ statusDisplay .APPROVED,
          .APPROVED, customerActor.name⟩,
         ⟨"p3", 8, "Estimate approved by customer", .APPROVED,
          customerActor.name⟩] :=
  approveEstimate_customer_success readyDB "p3" customerActor 8 readyProject
    rfl rfl rfl rfl

/-- C7 counterexample: on a project already COMPLETED — well past
ESTIMATE_READY — `createEstimate` succeeds instead of failing with an
InvalidState error: the estimate is created and the project's status is
rewound to ESTIMATE_READY. -/
theorem createEstimate_invalid_state_cex :
    (createEstimate completedDB ⟨"p2", 5000, none⟩ "u1" "Bob" 4).2 =
        .ok () ∧
    (createEstimate completedDB ⟨"p2", 5000, none⟩ "u1" "Bob"
        4).1.estimates = [⟨"p2", 500000, none, "u1"⟩] ∧
    (findProject (createEstimate completedDB ⟨"p2", 5000, none⟩ "u1" "Bob"
        4).1 "p2").map Project.status = some .ESTIMATE_READY :=
  ⟨rfl, rfl, rfl⟩

/-- C7 (amended): `createEstimate` checks only that the project exists — a
missing project fails with `Project not found` and no estimate is created; on
any existing project, regardless of its current status, the call succeeds,
stores the estimate with the caller-supplied `changeOrderNumber` (null for an
original), and unconditionally sets the project's status to ESTIMATE_READY. -/
theorem createEstimate_no_state_guard (db : DB) (body : EstimateBody)
    (userId userName : String) (now : Nat) :
    (findProject db body.projectId = none →
      createEstimate db body userId userName now =
        (db, .error "Project not found")) ∧
    (∀ p, findProject db body.projectId = some p →
      ∃ db1, createEstimate db body userId userName now = (db1, .ok ()) ∧
        db1.estimates = db.estimates ++ [⟨body.projectId, body.total * 100,
          body.changeOrderNumber, userId⟩] ∧
        (findProject db1 body.projectId).map Project.status =
          some .ESTIMATE_READY) := by
  constructor
  · intro h
    unfold createEstimate
    rw [h]
  · intro p hp
    refine ⟨createTimelineEvent (setProjectStatusOnly (insertEstimate db
        ⟨body.projectId, body.total * 100, body.changeOrderNumber, userId⟩)
        body.projectId .ESTIMATE_READY) body.projectId
        ("Estimate created: $" ++ toString body.total ++ ".00") .ESTIMATE
        userName now, ?_, ?_, ?_⟩
    · unfold createEstimate
      rw [hp]
    · rfl
    · show (findProject (setProjectStatusOnly (insertEstimate db
        ⟨body.projectId, body.total * 100, body.changeOrderNumber, userId⟩)
        body.projectId .ESTIMATE_READY) body.projectId).map Project.status =
        some .ESTIMATE_READY
      rw [findProject_setProjectStatusOnly, findProject_insertEstimate, hp]
      rfl

/-- Witness for C7 (amended): creating an original estimate (null number) on
the existing PENDING project "p1". -/
theorem createEstimate_no_state_guard_witness :
    ∃ db1, createEstimate sampleDB ⟨"p1", 300, none⟩ "u1" "Bob" 6 =
        (db1, .ok ()) ∧
      db1.estimates = sampleDB.estimates ++ [⟨"p1", 30000, none, "u1"⟩] ∧
      (findProject db1 "p1").map Project.status = some .ESTIMATE_READY :=
  (createEstimate_no_state_guard sampleDB ⟨"p1", 300, none⟩ "u1" "Bob" 6).2
    sampleProject rfl

/-- Witness for C5 at the concrete transition PENDING → ESTIMATE_READY by
actor "Alice". -/
theorem successful_transition_effects_witness :
    ∃ db1, updateProjectStatus sampleDB "p1" .ESTIMATE_READY "Alice" 5 =
        .ok (db1, .changed .PENDING .ESTIMATE_READY) ∧
      (findProject db1 "p1").map Project.status = some .ESTIMATE_READY ∧
      (findProject db1 "p1").map Project.updatedAt = some 5 ∧
      db1.events = sampleDB.events ++
        [⟨"p1", 5, "Status changed to " ++ statusDisplay .ESTIMATE_READY,
          .APPROVED, "Alice"⟩] :=
  successful_transition_effects sampleDB "p1" .ESTIMATE_READY "Alice" 5
    sampleProject rfl (by decide)

/-- C8: a customer actor invoking the role-gated PATCH /:id/status route is
denied by `requireTeamLead` with a 403 naming the actor's role and the
required role set [ADMIN, TEAM_LEAD]; the middleware runs before the
controller, so the returned state — project statuses and ledger alike — is
the unchanged input state. -/
theorem customer_setStatus_forbidden (db : DB) (id : String)
    (st : ProjectStatus) (actor : Actor) (now : Nat)
    (hrole : actor.role = .CUSTOMER) :
    patchProjectStatus db id st actor now =
      .forbidden teamLeadRoles .CUSTOMER db := by
  unfold patchProjectStatus
  rw [hrole]
  rfl

/-- Witness for C8: customer "Cara" attempting to set project "p1" to
COMPLETED. -/
theorem customer_setStatus_forbidden_witness :
    patchProjectStatus sampleDB "p1" .COMPLETED customerActor 2 =
      .forbidden teamLeadRoles .CUSTOMER sampleDB :=
  customer_setStatus_forbidden sampleDB "p1" .COMPLETED customerActor 2 rfl

/-- C9 counterexample: `updateInvoice` applies a PAID invoice's update without
any guard — the request overwrites both the amount (5 dollars → 500 cents)
and the status (PAID → PENDING) of the paid invoice, refuting its claimed
immutability. -/
theorem paid_invoice_update_cex :
    updateInvoice [paidInvoice] "i1" ⟨some .PENDING, some 5, none⟩ 3 =
      .ok [⟨"i1", 500, .PENDING, 10, 3⟩] :=
  rfl

/-- C9 (amended): a PAID invoice cannot be deleted — `deleteInvoice` rejects
it with a terminal error and no state change — but it is not immutable:
`updateInvoice` evaluates no status guard, so its amount and status can be
overwritten like any other invoice's. -/
theorem paid_invoice_delete_guard_only (invs : List Invoice) (id : String)
    (inv : Invoice) (body : InvoiceUpdateBody) (now : Nat)
    (hfind : findInvoice invs id = some inv) (hpaid : inv.status = .PAID) :
    deleteInvoice invs id = .error "Cannot delete paid invoice" ∧
    ∃ invs1, updateInvoice invs id body now = .ok invs1 ∧
      findInvoice invs1 id = some (applyInvoiceUpdate body now inv) := by
  constructor
  · unfold deleteInvoice
    rw [hfind]
    simp [hpaid]
  · refine ⟨invs.map (fun i =>
      if i.id == id then applyInvoiceUpdate body now i else i), ?_, ?_⟩
    · unfold updateInvoice
      rw [hfind]
    · show (invs.map (fun i =>
        if i.id == id then applyInvoiceUpdate body now i else i)).find?
          (fun i => i.id == id) = some (applyInvoiceUpdate body now inv)
      have hfind2 : invs.find? (fun i => i.id == id) = some inv := hfind
      rw [find?_map_update invs (fun i => i.id == id)
        (applyInvoiceUpdate body now) (fun a ha => ha), hfind2]
      rfl

/-- Witness for C9 (amended) on the concrete paid invoice "i1". -/
theorem paid_invoice_delete_guard_only_witness :
    deleteInvoice [paidInvoice] "i1" = .error "Cannot delete paid invoice" ∧
    ∃ invs1, updateInvoice [paidInvoice] "i1" ⟨none, some 7, none⟩ 4 =
        .ok invs1 ∧
      findInvoice invs1 "i1" =
        some (applyInvoiceUpdate ⟨none, some 7, none⟩ 4 paidInvoice) :=
  paid_invoice_delete_guard_only [paidInvoice] "i1" paidInvoice
    ⟨none, some 7, none⟩ 4 rfl rfl

/-- C10: the approve-estimate route mounts no role or ownership middleware,
so for every authenticated actor of any role and every existing project —
owned by that actor or not — the call is never Forbidden: it always proceeds,
leaves the project in status APPROVED, and appends the
"Estimate approved by customer" ledger entry (preceded by the transition's
own entry when the status actually changed). -/
theorem approveEstimate_no_role_gate (db : DB) (id : String) (actor : Actor)
    (now : Nat) (p : Project) (hfind : findProject db id = some p) :
    ∃ db1 pre, postApproveEstimate db id actor now = .ok db1 ∧
      (findProject db1 id).map Project.status = some .APPROVED ∧
      db1.events = db.events ++ pre ++
        [⟨id, now, "Estimate approved by customer", .APPROVED,
          actor.name⟩] := by
  by_cases hs : p.status = .APPROVED
  · have hup := updateProjectStatus_noop db id .APPROVED actor.name now p
      hfind hs
    refine ⟨createTimelineEvent db id "Estimate approved by customer"
      .APPROVED actor.name now, [], ?_, ?_, ?_⟩
    · unfold postApproveEstimate approveEstimate
      rw [hup]
    · show (findProject db id).map Project.status = some .APPROVED
      rw [hfind]
      simp [hs]
    · simp [createTimelineEvent]
  · have hup := updateProjectStatus_changed db id .APPROVED actor.name now p
      hfind hs
    refine ⟨createTimelineEvent (createTimelineEvent
        (writeProjectStatus db id .APPROVED now) id
        ("Status changed to " ++ statusDisplay .APPROVED) .APPROVED
        actor.name now) id "Estimate approved by customer" .APPROVED
        actor.name now,
      [⟨id, now, "Status changed to " ++ statusDisplay .APPROVED, .APPROVED,
        actor.name⟩], ?_, ?_, ?_⟩
    · unfold postApproveEstimate approveEstimate
      rw [hup]
    · show (findProject (writeProjectStatus db id .APPROVED now) id).map
        Project.status = some .APPROVED
      rw [findProject_writeProjectStatus, hfind]
      rfl
    · rfl

/-- Witness for C10: team member "Tess" — neither a customer nor the owner of
project "p1" — calling approve-estimate successfully. -/
theorem approveEstimate_no_role_gate_witness :
    ∃ db1 pre, postApproveEstimate sampleDB "p1" teamActor 11 = .ok db1 ∧
      (findProject db1 "p1").map Project.status = some .APPROVED ∧
      db1.events = sampleDB.events ++ pre ++
        [⟨"p1", 11, "Estimate approved by customer", .APPROVED,
          teamActor.name⟩] :=
  approveEstimate_no_role_gate sampleDB "p1" teamActor 11 sampleProject rfl

end Buildwise
